import Mathlib

/-!
Verification of the Conductor orchestrator against its specification.

The definitions below are a shallow embedding of the Python sources
(`src/conductor/models.py`, `db.py`, `task_manager.py`, `quota_manager.py`,
`guardrails.py`, `pr_lifecycle.py`).  The SQLite store is modelled as an
in-memory record of tables (lists of rows kept in rowid order); wall-clock
timestamps are abstract natural-number ticks passed explicitly; Python
floats are modelled as exact rationals.
-/

namespace Conductor

/-! ## models.py -/

/-- `TaskStatus` enum from models.py. -/
inductive TaskStatus where
  | pending
  | blocked
  | ready
  | running
  | done
  | failed
  | cancelled
deriving DecidableEq, Repr

/-- `TaskPriority` enum from models.py. -/
inductive TaskPriority where
  | critical
  | high
  | normal
  | low
deriving DecidableEq, Repr

/-- `PRIORITY_ORDER` dict from models.py; it is total on the enum, so the
Python-side `.get(p, 99)` default is unreachable. -/
def PRIORITY_ORDER : TaskPriority → Nat
  | .critical => 0
  | .high => 1
  | .normal => 2
  | .low => 3

/-- `BlockReason` enum from models.py. -/
inductive BlockReason where
  | dependency
  | quota_exhausted
  | no_workspace
deriving DecidableEq, Repr

/-- `.value` of a `BlockReason` member. -/
def BlockReason.value : BlockReason → String
  | .dependency => "dependency"
  | .quota_exhausted => "quota_exhausted"
  | .no_workspace => "no_workspace"

/-- JSON values, used for the free-form `metadata` dicts and for the
stream-json records scanned by the guardrails. -/
inductive Json where
  | null
  | bool (b : Bool)
  | num (n : Int)
  | str (s : String)
  | arr (xs : List Json)
  | obj (kvs : List (String × Json))

/-- `Task` dataclass from models.py (field defaults as in the source;
`metadata : dict[str, Any]` is modelled as an association list). -/
structure Task where
  id : Nat := 0
  title : String := ""
  description : String := ""
  status : TaskStatus := .pending
  priority : TaskPriority := .normal
  branch : String := ""
  workspace : String := ""
  depends_on : List Nat := []
  block_reason : String := ""
  retry_count : Nat := 0
  max_retries : Nat := 2
  pipeline_id : Option Nat := none
  pipeline_step : Nat := 0
  pr_number : Option Nat := none
  created_at : Nat := 0
  started_at : Option Nat := none
  completed_at : Option Nat := none
  metadata : List (String × Json) := []

/-- `AgentStatus` enum from models.py. -/
inductive AgentStatus where
  | starting
  | running
  | paused
  | completed
  | failed
  | killed
deriving DecidableEq, Repr

/-- `Agent` dataclass from models.py (the in-memory `output_lines` ring is
kept by the agent manager; the persisted row carries the fields below). -/
structure Agent where
  id : String := ""
  task_id : Nat := 0
  workspace : String := ""
  pid : Option Nat := none
  status : AgentStatus := .starting
  started_at : Nat := 0
  completed_at : Option Nat := none
  request_count : Nat := 0
deriving DecidableEq, Repr

/-- `PRStage` enum from models.py. -/
inductive PRStage where
  | planning
  | coding
  | prechecks
  | pr_created
  | ci_monitoring
  | ci_fixing
  | greptile_review
  | addressing_comments
  | ready_for_review
  | needs_human
  | merged
deriving DecidableEq, Repr

/-- `PRLifecycle` dataclass from models.py. -/
structure PRLifecycle where
  id : Nat := 0
  pr_number : Option Nat := none
  branch : String := ""
  title : String := ""
  stage : PRStage := .planning
  iteration : Nat := 0
  max_iterations : Nat := 3
  ci_fix_count : Nat := 0
  precheck_retry_count : Nat := 0
  greptile_comments_total : Nat := 0
  greptile_comments_resolved : Nat := 0
  pipeline_id : Option Nat := none
  created_at : Nat := 0
deriving DecidableEq, Repr

/-! ## db.py — the SQLite store as an in-memory state

Rows are held in rowid (= id) order: `create_*` appends with the next
autoincrement id, so each table list is ascending in `id`, matching the
`ORDER BY id` reads in `db.py`. -/

/-- The database state: the tables touched by the claims under study. -/
structure DB where
  tasks : List Task := []
  next_task_id : Nat := 1
  agents : List Agent := []
  prls : List PRLifecycle := []
  next_prl_id : Nat := 1

/-- `db.create_task`: INSERT with autoincrement id. -/
def DB.createTask (db : DB) (t : Task) : Task × DB :=
  let t' := { t with id := db.next_task_id }
  (t', { db with tasks := db.tasks ++ [t'], next_task_id := db.next_task_id + 1 })

/-- `db.get_task`: SELECT * FROM tasks WHERE id = ?. -/
def DB.getTask (db : DB) (task_id : Nat) : Option Task :=
  db.tasks.find? (fun t => t.id == task_id)

/-- `db.list_tasks(status=s)`: SELECT ... WHERE status = ? ORDER BY id
(rows are stored in id order). -/
def DB.listTasks (db : DB) (status : TaskStatus) : List Task :=
  db.tasks.filter (fun t => t.status == status)

/-- `db.update_task`: UPDATE tasks SET ... WHERE id = ? (affects every row
whose id matches, exactly as the SQL does; the statement writes every
column except `created_at`, which keeps the stored row's value). -/
def DB.updateTask (db : DB) (t : Task) : DB :=
  { db with tasks := db.tasks.map (fun u =>
      if u.id == t.id then { t with created_at := u.created_at } else u) }

/-- `db.get_pr_lifecycle`. -/
def DB.getPrl (db : DB) (prl_id : Nat) : Option PRLifecycle :=
  db.prls.find? (fun p => p.id == prl_id)

/-- `db.update_pr_lifecycle`: the UPDATE statement writes every column
except `max_iterations` and `created_at`, which keep the stored row's
values. -/
def DB.updatePrl (db : DB) (prl : PRLifecycle) : DB :=
  { db with prls := db.prls.map (fun p =>
      if p.id == prl.id then
        { prl with max_iterations := p.max_iterations, created_at := p.created_at }
      else p) }

/-! ## task_manager.py -/

/-- `_valid_transitions()` from task_manager.py. -/
def valid_transitions : TaskStatus → List TaskStatus
  | .pending => [.blocked, .ready, .cancelled]
  | .blocked => [.ready, .cancelled]
  | .ready => [.running, .blocked, .cancelled]
  | .running => [.done, .failed, .cancelled]
  | .failed => [.ready, .cancelled]
  | .done => []
  | .cancelled => []

/-- `.value` string of a `TaskStatus` member. -/
def TaskStatus.value : TaskStatus → String
  | .pending => "pending"
  | .blocked => "blocked"
  | .ready => "ready"
  | .running => "running"
  | .done => "done"
  | .failed => "failed"
  | .cancelled => "cancelled"

/-- One step of the `(t := db.get_task(d)) and t.status == TaskStatus.DONE`
generator: prerequisite `d` counts as done only when it refers to an
existing task in status done. -/
def depDone (db : DB) (d : Nat) : Bool :=
  match db.getTask d with
  | some t => t.status == .done
  | none => false

/-- The `all(...)` prerequisite check shared by `add_task` and
`_unblock_dependents`. -/
def allDepsDone (db : DB) (dep_ids : List Nat) : Bool :=
  dep_ids.all (depDone db)

/-- `add_task` from task_manager.py: computes the initial status from the
prerequisite list and inserts the task. -/
def add_task (db : DB) (title : String) (description : String := "")
    (priority : TaskPriority := .normal) (branch : String := "")
    (depends_on : List Nat := []) (pr_number : Option Nat := none)
    (pipeline_id : Option Nat := none) (pipeline_step : Nat := 0)
    (metadata : List (String × Json) := []) (now : Nat := 0) : Task × DB :=
  let dep_ids := depends_on
  let (status, block_reason) :=
    if dep_ids.isEmpty then (TaskStatus.ready, "")
    else if allDepsDone db dep_ids then (TaskStatus.ready, "")
    else (TaskStatus.blocked, BlockReason.dependency.value)
  db.createTask
    { title := title
      description := description
      status := status
      priority := priority
      branch := branch
      depends_on := dep_ids
      block_reason := block_reason
      pr_number := pr_number
      pipeline_id := pipeline_id
      pipeline_step := pipeline_step
      metadata := metadata
      created_at := now }

/-- A task flipped to ready by the unblock sweep. -/
def unblockTask (t : Task) : Task :=
  { t with status := .ready, block_reason := "" }

/-- The loop body of `_unblock_dependents` for one snapshot task: skip
it unless its block-reason is `dependency` and it lists the completed
task; flip it to ready when all of its prerequisites are done, checked
against the store as it stands at that loop step, exactly as the Python
loop does. -/
def sweepStep (completed_task_id : Nat) (acc : DB) (t : Task) : DB :=
  if t.block_reason != BlockReason.dependency.value then acc
  else if !(t.depends_on.contains completed_task_id) then acc
  else if allDepsDone acc t.depends_on then acc.updateTask (unblockTask t)
  else acc

/-- `_unblock_dependents(completed_task_id)` from task_manager.py: take a
snapshot of the blocked tasks, then run the loop body over it. -/
def unblockDependents (completed_task_id : Nat) (db : DB) : DB :=
  (db.listTasks .blocked).foldl (sweepStep completed_task_id) db

/-- Whether the sweep for completed task `c` flips snapshot task `t`,
with the prerequisite check read off the given store: this is the
loop-body condition of `_unblock_dependents`. -/
def sweepFlips (db : DB) (c : Nat) (t : Task) : Bool :=
  t.block_reason == BlockReason.dependency.value
    && t.depends_on.contains c && allDepsDone db t.depends_on

/-- The tasks table image of a sweep that flipped exactly the rows whose
ids are in `S`. -/
def flipBy (S : List Nat) (u : Task) : Task :=
  if S.contains u.id then unblockTask u else u

/-- The store after flipping exactly the rows whose ids are in `S`. -/
def mkSweepDB (db : DB) (S : List Nat) : DB :=
  { db with tasks := db.tasks.map (flipBy S) }

/-- The field updates `transition` applies to the task after validation:
set the status, stamp `started_at` on entering running and
`completed_at` on entering a terminal state, clear the block-reason
unless entering blocked. -/
def transitionTask (task : Task) (new_status : TaskStatus) (now : Nat) : Task :=
  let task := { task with status := new_status }
  let task :=
    if new_status == .running then { task with started_at := some now }
    else if new_status == .done || new_status == .failed
        || new_status == .cancelled then { task with completed_at := some now }
    else task
  if new_status != .blocked then { task with block_reason := "" } else task

/-- `transition(task, new_status)` from task_manager.py.  The Python
function raises `ValueError` on an invalid pair before touching the task
or the store; this is modelled by returning the error message alongside
the untouched database. -/
def transition (db : DB) (task : Task) (new_status : TaskStatus) (now : Nat) :
    Except String Task × DB :=
  if new_status ∉ valid_transitions task.status then
    (.error ("Cannot transition task from " ++ task.status.value ++ " to "
       ++ new_status.value), db)
  else
    let task := transitionTask task new_status now
    let db := db.updateTask task
    let db := if new_status == .done then unblockDependents task.id db else db
    (.ok task, db)

/-- `retry_task(task)` from task_manager.py: returns nothing when retries
are exhausted; otherwise increments the retry counter, clears the
timestamps and workspace, and puts the task back in ready. -/
def retry_task (db : DB) (task : Task) : Option (Task × DB) :=
  if task.retry_count ≥ task.max_retries then none
  else
    let t := { task with
      retry_count := task.retry_count + 1
      status := TaskStatus.ready
      started_at := none
      completed_at := none
      workspace := "" }
    some (t, db.updateTask t)

/-- The sort key of `get_ready_tasks`: `PRIORITY_ORDER.get(t.priority, 99)`. -/
def rankKey (t : Task) : Nat := PRIORITY_ORDER t.priority

/-- Insertion step of a stable sort on `rankKey`: the element being
inserted is original-order-earlier than everything in the list, so it
goes before the first element of equal or greater rank. -/
def insertByRank (t : Task) : List Task → List Task
  | [] => [t]
  | h :: tl => if rankKey h < rankKey t then h :: insertByRank t tl else t :: h :: tl

/-- Python's `list.sort(key=...)` is a stable sort; modelled as a stable
insertion sort on the rank key. -/
def stableSortByRank : List Task → List Task
  | [] => []
  | h :: tl => insertByRank h (stableSortByRank tl)

/-- `get_ready_tasks()` from task_manager.py: the ready tasks (read in id
order) stably sorted by priority rank. -/
def get_ready_tasks (db : DB) : List Task :=
  stableSortByRank (db.listTasks .ready)

/-! ## db.py — startup recovery sweep -/

/-- SQLite's `json_set(meta, '$.k', v)`: replace the key if present,
append it otherwise. -/
def jsonSet (meta : List (String × Json)) (k : String) (v : Json) :
    List (String × Json) :=
  if meta.any (fun kv => kv.1 == k) then
    meta.map (fun kv => if kv.1 == k then (k, v) else kv)
  else meta ++ [(k, v)]

/-- The recovery note written by the sweep. -/
def recoveryNote : String :=
  "Interrupted — conductor restarted while task was running"

/-- The `prl_id` extracted from a stuck task's metadata, when it is an
integer (a non-integer value would match no integer `pr_lifecycles.id`
in the UPDATE, so it is dropped here with the same effect). -/
def metaPrlId (t : Task) : Option Int :=
  match t.metadata.lookup "prl_id" with
  | some (.num n) => some n
  | _ => none

/-- The UPDATE applied to a stuck task row: failed, completion stamped,
recovery note written into the metadata. -/
def recoverMarkTask (now : Nat) (t : Task) : Task :=
  { t with status := .failed, completed_at := some now,
           metadata := jsonSet t.metadata "recovery_note" (.str recoveryNote) }

/-- The UPDATE applied to a starting/running agent row. -/
def recoverMarkAgent (now : Nat) (a : Agent) : Agent :=
  { a with status := .failed, completed_at := some now }

/-- `db.recover_stuck_tasks` from db.py: find the tasks stuck in
`running`; if there are none, return 0 at once (touching nothing else);
otherwise mark them failed with the recovery note, mark every
starting/running agent failed, and regress every PR lifecycle referenced
by the stuck tasks' `prl_id` metadata to planning. -/
def recover_stuck_tasks (db : DB) (now : Nat) : Nat × DB :=
  let stuck := db.tasks.filter (fun t => t.status == .running)
  if stuck.isEmpty then (0, db)
  else
    let stuck_ids := stuck.map Task.id
    let prl_ids := stuck.filterMap metaPrlId
    let tasks := db.tasks.map (fun t =>
      if stuck_ids.contains t.id then recoverMarkTask now t else t)
    let agents := db.agents.map (fun a =>
      if a.status == .starting || a.status == .running then recoverMarkAgent now a
      else a)
    let prls := db.prls.map (fun p =>
      if prl_ids.contains (p.id : Int) then { p with stage := .planning } else p)
    (stuck_ids.length,
     { db with tasks := tasks, agents := agents, prls := prls })

/-! ## quota_manager.py -/

/-- The `QuotaManager` object state: configured limits plus the mutable
`_paused` flag and `_active_agents` counter. -/
structure QuotaManager where
  daily_agent_requests : Nat := 200
  daily_prompts : Nat := 1500
  max_concurrent : Nat := 3
  pause_at_percent : Nat := 90
  reserve_requests : Nat := 20
  paused : Bool := false
  active_agents : Nat := 0

/-- `can_start_agent()` from quota_manager.py.  `agent_used` is today's
recorded agent-request count read from the store; the float percentage is
modelled as an exact rational.  Returns the (allowed?, reason) pair and
the manager state (whose paused flag the last two refusal branches set).
The interpolated numbers inside two refusal messages are elided; nothing
here inspects the message text beyond "OK". -/
def can_start_agent (qm : QuotaManager) (agent_used : Nat) :
    (Bool × String) × QuotaManager :=
  if qm.paused then ((false, "Quota is paused"), qm)
  else if qm.active_agents ≥ qm.max_concurrent then
    ((false, "Max concurrent agents (" ++ toString qm.max_concurrent ++ ") reached"), qm)
  else
    let effective_limit : Int := (qm.daily_agent_requests : Int) - qm.reserve_requests
    if (agent_used : Int) ≥ effective_limit then
      ((false, "Agent request quota exhausted"), { qm with paused := true })
    else
      let pct : ℚ := ((agent_used : ℚ) / (qm.daily_agent_requests : ℚ)) * 100
      if pct ≥ (qm.pause_at_percent : ℚ) then
        ((false, "Quota at threshold"), { qm with paused := true })
      else ((true, "OK"), qm)

/-! ## guardrails.py -/

/-- `GuardrailConfig` from guardrails.py with its source defaults. -/
structure GuardrailConfig where
  protected_branches : List String := ["main", "master", "release/*"]
  blocked_paths : List String := ["~/.ssh", "~/.conductor", "~/.env", "~/.gitconfig"]
  max_files_changed : Nat := 50
  max_lines_changed : Nat := 2000
  task_timeout_minutes : Nat := 30
  max_retries : Nat := 2
  block_force_push : Bool := true
  require_commit_tag : Bool := true
  auto_rollback_on_failure : Bool := true

/-- Result record of `check_diff_size`. -/
structure DiffSizeResult where
  files_changed : Nat
  lines_changed : Nat
  files_ok : Bool
  lines_ok : Bool
  ok : Bool
deriving DecidableEq, Repr

/-- `Guardrails.check_diff_size` from guardrails.py. -/
def check_diff_size (cfg : GuardrailConfig) (files_changed lines_changed : Nat) :
    DiffSizeResult :=
  let files_ok := decide (files_changed ≤ cfg.max_files_changed)
  let lines_ok := decide (lines_changed ≤ cfg.max_lines_changed)
  { files_changed := files_changed
    lines_changed := lines_changed
    files_ok := files_ok
    lines_ok := lines_ok
    ok := files_ok && lines_ok }

/-- Python `\w` (re word character, ASCII). -/
def isWordChar (c : Char) : Bool := c.isAlphanum || c == '_'

/-- Python `\s` whitespace class (ASCII). -/
def isSpaceCh (c : Char) : Bool :=
  c == ' ' || c == '\t' || c == '\n' || c == '\x0d' || c == '\x0b' || c == '\x0c'

/-- Python `str.strip()`: whitespace removed from both ends. -/
def pyStrip (s : String) : String :=
  ⟨((s.data.dropWhile isSpaceCh).reverse.dropWhile isSpaceCh).reverse⟩

/-- Python `str.lower()` (ASCII). -/
def pyLower (s : String) : String := ⟨s.data.map Char.toLower⟩

/-- Python `str.startswith(p)`. -/
def pyStartsWith (s p : String) : Bool := p.data.isPrefixOf s.data

/-- The regex constructs the guardrail patterns use: a literal run,
`\s+`, `\s*`, `.*`, and a trailing `\b` (which in these patterns always
follows a word character, so it holds exactly when the next character is
absent or not a word character). -/
inductive Tok where
  | lit (s : String)
  | wsPlus
  | wsStar
  | dotStar
  | wordBreak
deriving Repr

/-- Match a token list against a character list anchored at the start,
with a fuel argument for termination; each recursive call shrinks
`ts.length + cs.length`, so `matchToks` below supplies enough fuel. -/
def matchToksF : Nat → List Tok → List Char → Bool
  | 0, _, _ => false
  | _ + 1, [], _ => true
  | fuel + 1, .lit s :: ts, cs =>
    if s.toList.isPrefixOf cs then matchToksF fuel ts (cs.drop s.length) else false
  | _ + 1, .wsPlus :: _, [] => false
  | fuel + 1, .wsPlus :: ts, c :: cs =>
    if isSpaceCh c then matchToksF fuel ts cs || matchToksF fuel (.wsPlus :: ts) cs
    else false
  | fuel + 1, .wsStar :: ts, cs =>
    matchToksF fuel ts cs ||
      (match cs with
       | [] => false
       | c :: cs' => isSpaceCh c && matchToksF fuel (.wsStar :: ts) cs')
  | fuel + 1, .dotStar :: ts, cs =>
    matchToksF fuel ts cs ||
      (match cs with
       | [] => false
       | _ :: cs' => matchToksF fuel (.dotStar :: ts) cs')
  | fuel + 1, .wordBreak :: ts, cs =>
    (match cs with
     | [] => true
     | c :: _ => !isWordChar c) && matchToksF fuel ts cs

/-- Anchored match with sufficient fuel. -/
def matchToks (ts : List Tok) (cs : List Char) : Bool :=
  matchToksF (ts.length + cs.length + 1) ts cs

/-- `re.search`: the pattern matches at some position. -/
def searchFrom (ts : List Tok) : List Char → Bool
  | [] => matchToks ts []
  | c :: cs => matchToks ts (c :: cs) || searchFrom ts cs

/-- `re.search(pattern, text, re.IGNORECASE)`: case-insensitivity is
modelled by lowering the subject; the patterns below are written in
lower case. -/
def reSearch (ts : List Tok) (text : String) : Bool :=
  searchFrom ts (pyLower text).data

/-- The `force_push_patterns` of `check_agent_output`:
`git\s+push\s+.*--force`, `git\s+push\s+-f\b`,
`git\s+push\s+.*--force-with-lease`. -/
def forcePushPatterns : List (List Tok) :=
  [ [.lit "git", .wsPlus, .lit "push", .wsPlus, .dotStar, .lit "--force"],
    [.lit "git", .wsPlus, .lit "push", .wsPlus, .lit "-f", .wordBreak],
    [.lit "git", .wsPlus, .lit "push", .wsPlus, .dotStar, .lit "--force-with-lease"] ]

/-- The `dangerous_patterns` of `check_agent_output` with their violation
types: `rm\s+-rf\s+/`, `rm\s+-rf\s+~/`, `chmod\s+-R\s+777`,
`curl\s+.*\|\s*sh`, `wget\s+.*\|\s*sh` (the subject is lowered, hence
`-r` for `-R`). -/
def dangerousPatterns : List (List Tok × String) :=
  [ ([.lit "rm", .wsPlus, .lit "-rf", .wsPlus, .lit "/"], "recursive_delete_root"),
    ([.lit "rm", .wsPlus, .lit "-rf", .wsPlus, .lit "~/"], "recursive_delete_home"),
    ([.lit "chmod", .wsPlus, .lit "-r", .wsPlus, .lit "777"], "insecure_permissions"),
    ([.lit "curl", .wsPlus, .dotStar, .lit "|", .wsStar, .lit "sh"], "pipe_to_shell"),
    ([.lit "wget", .wsPlus, .dotStar, .lit "|", .wsStar, .lit "sh"], "pipe_to_shell") ]

/-- A violation record appended by `check_agent_output`. -/
structure Violation where
  vtype : String
  severity : String
  line : String

/-- Result of `check_agent_output`. -/
structure ScanResult where
  violations : List Violation
  should_kill : Bool

/-- The tool-name substrings that mark a shell-execution tool. -/
def shellToolNames : List String :=
  ["shell", "terminal", "exec", "command", "bash", "run_command"]

/-- Python truthiness of a JSON value (`bool(x)`). -/
def jTruthy : Json → Bool
  | .null => false
  | .bool b => b
  | .num n => n != 0
  | .str s => s != ""
  | .arr xs => !xs.isEmpty
  | .obj kvs => !kvs.isEmpty

/-- `a or b` on Python values. -/
def pyOr (a b : Json) : Json := if jTruthy a then a else b

/-- `parsed.get(k, "")` on a parsed JSON object. -/
def jGetD (kvs : List (String × Json)) (k : String) : Json :=
  (kvs.lookup k).getD (.str "")

/-- Python `str()` on the JSON values the scanner can receive.  The
claims under study only exercise string inputs; the representation of
nested containers is compressed to a marker rather than reproducing
Python repr formatting. -/
def pyStr : Json → String
  | .null => "None"
  | .bool b => if b then "True" else "False"
  | .num n => toString n
  | .str s => s
  | .arr _ => "[...]"
  | .obj _ => "{...}"

/-- Helper for substring containment: the needle occurs at some position. -/
def containsChars (needle : List Char) : List Char → Bool
  | [] => needle.isEmpty
  | c :: cs => needle.isPrefixOf (c :: cs) || containsChars needle cs

/-- Substring containment (`needle in haystack` on Python strings). -/
def containsStr (haystack needle : String) : Bool :=
  containsChars needle.data haystack.data

/-- Python `s[:n]`. -/
def strTake (s : String) (n : Nat) : String := ⟨s.data.take n⟩

/-- One agent stdout line together with the outcome of `json.loads` on
it, which the embedding does not re-implement: `parsed = none` stands
for a line that is not parseable JSON, `parsed = some j` for a line
parsing to the value `j`. -/
structure OutputLine where
  raw : String
  parsed : Option Json

/-- `Guardrails.check_agent_output` from guardrails.py: pick the text to
scan (the tool input of a parsed shell-tool record, or a non-JSON line
only when it begins with a `$` or `>` shell-prompt sigil after
stripping), then collect the force-push and dangerous-pattern
violations; any violation marks the line as must-kill. -/
def check_agent_output (cfg : GuardrailConfig) (line : OutputLine) : ScanResult :=
  let text_to_scan :=
    match line.parsed with
    | some (.obj kvs) =>
      let tool_name := pyOr (jGetD kvs "tool") (jGetD kvs "name")
      let tool_input := pyOr (jGetD kvs "input") (jGetD kvs "args")
      if shellToolNames.any (fun t => containsStr (pyLower (pyStr tool_name)) t) then
        pyStr tool_input
      else ""
    | some _ => ""
    | none =>
      let stripped := pyStrip line.raw
      if pyStartsWith stripped "$" || pyStartsWith stripped ">" then stripped else ""
  if text_to_scan == "" then { violations := [], should_kill := false }
  else
    let forceViolations :=
      if cfg.block_force_push then
        (forcePushPatterns.filter (fun p => reSearch p text_to_scan)).map (fun _ =>
          { vtype := "force_push_attempt", severity := "critical",
            line := strTake text_to_scan 200 })
      else []
    let dangerViolations :=
      (dangerousPatterns.filter (fun pv => reSearch pv.1 text_to_scan)).map (fun pv =>
        { vtype := pv.2, severity := "critical", line := strTake text_to_scan 200 })
    let violations := forceViolations ++ dangerViolations
    { violations := violations, should_kill := !violations.isEmpty }

/-! ## pr_lifecycle.py -/

/-- The `PRLifecycleManager` configuration defaults read in `__init__`. -/
structure PRLMConfig where
  max_greptile_iterations : Nat := 3
  max_precheck_retries : Nat := 3
  max_ci_fix_retries : Nat := 3
  precheck_command : String := "scripts/precheck.sh"
  pr_base_branch : String := "main"

/-- The GitHub monitor as seen by `advance`: CI-status events and review
comments per PR number (each event a parsed JSON record, as the Python
dicts are), and the failing-check log fetcher. -/
structure GitHubEnv where
  ci_status : Nat → List Json
  reviews : Nat → List Json
  ci_failure_logs : Nat → String → String

/-- `.get(k)` of a string field on an event dict, `none` when the key is
absent or not a string. -/
def jGetStr (e : Json) (k : String) : Option String :=
  match e with
  | .obj kvs =>
    match kvs.lookup k with
    | some (.str s) => some s
    | _ => none
  | _ => none

/-- `PRLifecycleManager._transition`: set the stage and persist. -/
def prlTransition (db : DB) (prl : PRLifecycle) (new_stage : PRStage) :
    PRLifecycle × DB :=
  let prl := { prl with stage := new_stage }
  (prl, db.updatePrl prl)

/-- The body of one CI-fix task creation inside the CI_MONITORING branch. -/
def ciFixTask (env : GitHubEnv) (prl : PRLifecycle)
    (pr_number : Nat) (now : Nat) (db : DB) (e : Json) : DB :=
  let check := (jGetStr e "check_name").getD ""
  let logs := env.ci_failure_logs pr_number check
  (add_task db ("[PR " ++ prl.title ++ "] Fix CI: " ++ check)
    ("CI check \x27" ++ check ++ "\x27 failed.\n\nLogs:\n" ++ strTake logs 3000)
    .high prl.branch [] none none 0
    [("prl_id", .num prl.id), ("type", .str "ci_fix")] now).2

/-- One Greptile-comment task creation inside the GREPTILE_REVIEW branch
(`i` is the enumeration index). -/
def greptileTask (prl : PRLifecycle) (pr_number : Nat) (now : Nat)
    (db : DB) (i : Nat) (comment : Json) : DB :=
  (add_task db ("[PR " ++ prl.title ++ "] Address Greptile #" ++ toString (i + 1))
    ("Greptile comment on PR #" ++ toString pr_number ++ ":\n\n"
      ++ ((jGetStr comment "body").getD "") ++ "\n\n"
      ++ "Fix the issue, commit with [conductor:task-ID], and reply to the comment.")
    .normal prl.branch [] none none 0
    [("prl_id", .num prl.id), ("type", .str "greptile_fix"), ("comment", comment)]
    now).2

/-- `PRLifecycleManager.advance(prl_id)` from pr_lifecycle.py: dispatch on
the current stage (unlisted stages fall through to the final persist),
then persist the lifecycle record.  External side effects with no
database footprint (PR comments, logging, the stage-change callback) are
not modelled; the Python truthiness test `if prl.pr_number:` is modelled
as presence of the optional number (a PR numbered 0 does not occur). -/
def advance (cfg : PRLMConfig) (env : GitHubEnv) (db : DB) (prl_id : Nat)
    (now : Nat) : Option PRLifecycle × DB :=
  match db.getPrl prl_id with
  | none => (none, db)
  | some prl =>
    let (prl, db) :=
      match prl.stage with
      | .coding => prlTransition db prl .prechecks
      | .prechecks =>
        let db :=
          (add_task db ("[PR " ++ prl.title ++ "] Run prechecks")
            ("Run " ++ cfg.precheck_command ++ " in workspace. Fix any failures.")
            .high prl.branch [] none none 0
            [("prl_id", .num prl.id), ("type", .str "precheck")] now).2
        (prl, db)
      | .pr_created => prlTransition db prl .ci_monitoring
      | .ci_monitoring =>
        match prl.pr_number with
        | none => (prl, db)
        | some n =>
          let events := env.ci_status n
          let failures := events.filter (fun e => jGetStr e "type" == some "ci_failure")
          if failures.isEmpty then prlTransition db prl .greptile_review
          else
            let (prl, db) := prlTransition db prl .ci_fixing
            let prl := { prl with ci_fix_count := prl.ci_fix_count + 1 }
            let db := (failures.take 3).foldl (ciFixTask env prl n now) db
            (prl, db)
      | .ci_fixing => prlTransition db prl .ci_monitoring
      | .greptile_review =>
        match prl.pr_number with
        | none => (prl, db)
        | some n =>
          let events := env.reviews n
          let greptile_comments := events.filter (fun e =>
            jGetStr e "source" == some "greptile"
              && pyStrip ((jGetStr e "body").getD "") != "")
          if greptile_comments.isEmpty then (prl, db)
          else
            let prl := { prl with
              greptile_comments_total := greptile_comments.length
              greptile_comments_resolved := 0 }
            let (prl, db) := prlTransition db prl .addressing_comments
            let db := (greptile_comments.enum.foldl
              (fun db (ic : Nat × Json) => greptileTask prl n now db ic.1 ic.2) db)
            (prl, db)
      | .addressing_comments =>
        let prl := { prl with iteration := prl.iteration + 1 }
        let db := db.updatePrl prl
        if prl.iteration ≥ prl.max_iterations then prlTransition db prl .needs_human
        else prlTransition db prl .ci_monitoring
      | _ => (prl, db)
    (some prl, db.updatePrl prl)

/-! ## Spec-side definitions and concrete fixtures -/

/-- The allowed transition matrix as written in the specification,
section 4.5 (pending → blocked/ready/cancelled; blocked →
ready/cancelled; ready → running/blocked/cancelled; running →
done/failed/cancelled; failed → ready/cancelled; done and cancelled →
nothing).  Stated separately from `valid_transitions` so the code's
matrix can be compared against the spec's. -/
def specAllowed : TaskStatus → TaskStatus → Bool
  | .pending, t => t == .blocked || t == .ready || t == .cancelled
  | .blocked, t => t == .ready || t == .cancelled
  | .ready, t => t == .running || t == .blocked || t == .cancelled
  | .running, t => t == .done || t == .failed || t == .cancelled
  | .failed, t => t == .ready || t == .cancelled
  | .done, _ => false
  | .cancelled, _ => false

/-- The priority-then-insertion-id order `get_ready_tasks` is claimed to
produce: strictly lower rank first, ties by ascending id. -/
def taskLex (a b : Task) : Prop :=
  rankKey a < rankKey b ∨ (rankKey a = rankKey b ∧ a.id < b.id)

/-- A stream-json record for a shell tool invocation carrying a
force-push command (spec scenario 4). -/
def c3KillJson : Json :=
  .obj [("tool", .str "run_command"), ("input", .str "git push --force origin main")]

/-- A prose line mentioning a force push, not JSON and not prefixed with
a shell-prompt sigil. -/
def c3ProseLine : OutputLine :=
  { raw := "I will run git push --force now", parsed := none }

/-- A task already done with retries remaining. -/
def c5Task : Task :=
  { id := 1, title := "T", status := .done, retry_count := 0, max_retries := 2 }

/-- Store holding just `c5Task`. -/
def c5DB : DB := { tasks := [c5Task], next_task_id := 2 }

/-- An agent record left in status running by a crash. -/
def c1Agent : Agent := { id := "agent-1", task_id := 1, status := .running }

/-- A crashed state with no running task but one running agent. -/
def c1DB : DB := { tasks := [], agents := [c1Agent] }

/-- A store on which the recovery sweep has real work: one running task
referencing a PR lifecycle, one starting agent, one lifecycle in coding. -/
def c1BusyDB : DB :=
  { tasks := [{ id := 1, title := "T", status := .running,
                metadata := [("prl_id", Json.num 7)] }],
    next_task_id := 2,
    agents := [{ id := "agent-2", task_id := 1, status := .starting }],
    prls := [{ id := 7, stage := .coding }],
    next_prl_id := 8 }

/-- Running task 1 about to complete. -/
def c6Task1 : Task := { id := 1, title := "A", status := .running }

/-- Task 2, blocked on task 3 (which is already done), but not listing
task 1, so the sweep never examines it. -/
def c6Task2 : Task :=
  { id := 2, title := "B", status := .blocked, depends_on := [3],
    block_reason := "dependency" }

/-- Task 3, already done. -/
def c6Task3 : Task := { id := 3, title := "C", status := .done }

/-- The pre-state of the C6 counterexample. -/
def c6DB : DB := { tasks := [c6Task1, c6Task2, c6Task3], next_task_id := 4 }

/-- Running task 1 whose completion should unblock task 2. -/
def c6wTask1 : Task := { id := 1, title := "A", status := .running }

/-- Task 2 blocked on task 1 alone. -/
def c6wTask2 : Task :=
  { id := 2, title := "B", status := .blocked, depends_on := [1],
    block_reason := "dependency" }

/-- The store of the C6 witness (the spec's dependency-unblocking
scenario). -/
def c6wDB : DB := { tasks := [c6wTask1, c6wTask2], next_task_id := 3 }

/-- The spec's priority-ordering scenario: tasks Low, Critical, Normal
added in that order. -/
def c9ExampleDB : DB :=
  (add_task (add_task (add_task {} "Low" "" .low).2 "Critical" "" .critical).2
    "Normal" "" .normal).2

/-- The row the PRECHECKS branch of `advance` inserts. -/
def precheckTaskRecord (db : DB) (cfg : PRLMConfig) (prl : PRLifecycle)
    (now : Nat) : Task :=
  { id := db.next_task_id
    title := "[PR " ++ prl.title ++ "] Run prechecks"
    description := "Run " ++ cfg.precheck_command ++ " in workspace. Fix any failures."
    status := .ready
    priority := .high
    branch := prl.branch
    depends_on := []
    block_reason := ""
    metadata := [("prl_id", Json.num prl.id), ("type", Json.str "precheck")]
    created_at := now }

/-- A PR lifecycle sitting in stage PRECHECKS. -/
def c4Prl : PRLifecycle := { id := 1, stage := .prechecks, title := "X", branch := "b" }

/-- Store holding just `c4Prl`. -/
def c4DB : DB := { prls := [c4Prl], next_prl_id := 2 }

/-- A GitHub monitor with no CI events and no review comments. -/
def c4Env : GitHubEnv :=
  { ci_status := fun _ => [], reviews := fun _ => [], ci_failure_logs := fun _ _ => "" }

/-- The store after one `advance` from PRECHECKS. -/
def c4DB1 : DB := (advance {} c4Env c4DB 1 5).2

/-- The store after a second `advance` from the same stage. -/
def c4DB2 : DB := (advance {} c4Env c4DB1 1 6).2

/-- Task "B" added to an empty store, depending on the not-yet-existing
id 2. -/
def c10DB1 : DB := (add_task {} "B" "" .normal "" [2] none none 0 [] 0).2

/-- Then task "C" is added, receiving precisely the autoincrement id 2. -/
def c10DB2 : DB := (add_task c10DB1 "C" "" .normal "" [] none none 0 [] 0).2

/-- The row of task C. -/
def c10TaskC : Task := (c10DB2.getTask 2).getD {}

/-- Task C started. -/
def c10DB3 : DB := (transition c10DB2 c10TaskC .running 1).2

/-- The running row of task C. -/
def c10TaskC2 : Task := (c10DB3.getTask 2).getD {}

/-- Task C completed — the transition runs the unblock sweep. -/
def c10DB4 : DB := (transition c10DB3 c10TaskC2 .done 2).2

/-! ## Theorems -/

/-- The code's transition matrix coincides with the spec's §4.5 table. -/
theorem specAllowed_eq (s t : TaskStatus) :
    specAllowed s t = true ↔ t ∈ valid_transitions s := by
  cases s <;> cases t <;> decide

/-- C8: for all non-negative `files_changed` and `lines_changed`,
`check_diff_size` returns `files_ok` iff files are at most the
configured max-files limit and `lines_ok` iff lines are at most the
max-lines limit, with `ok` their conjunction; exactly at either limit
the result is ok, one over it is not. -/
theorem c8_check_diff_size (cfg : GuardrailConfig) (files lns : Nat) :
    ((check_diff_size cfg files lns).files_ok = true ↔ files ≤ cfg.max_files_changed) ∧
    ((check_diff_size cfg files lns).lines_ok = true ↔ lns ≤ cfg.max_lines_changed) ∧
    ((check_diff_size cfg files lns).ok =
      ((check_diff_size cfg files lns).files_ok && (check_diff_size cfg files lns).lines_ok)) ∧
    (check_diff_size cfg cfg.max_files_changed cfg.max_lines_changed).ok = true ∧
    (check_diff_size cfg (cfg.max_files_changed + 1) lns).ok = false ∧
    (check_diff_size cfg files (cfg.max_lines_changed + 1)).ok = false := by
  simp [check_diff_size]

/-- Witness for C8 at the default configuration and its exact limits. -/
theorem c8_check_diff_size_witness :
    (check_diff_size {} ({} : GuardrailConfig).max_files_changed
      ({} : GuardrailConfig).max_lines_changed).ok = true ∧
    (check_diff_size {} (({} : GuardrailConfig).max_files_changed + 1) 0).ok = false :=
  ⟨(c8_check_diff_size {} 0 0).2.2.2.1, (c8_check_diff_size {} 0 0).2.2.2.2.1⟩

/-- C2: `transition` errors out and leaves the store untouched exactly
when the (current, target) pair is outside the §4.5 matrix; on an
allowed pair the status becomes the target, `started_at` is stamped on
entering running and `completed_at` on entering done, failed or
cancelled, and the respective timestamps are untouched otherwise. -/
theorem c2_transition_matrix (db : DB) (task : Task) (new_status : TaskStatus)
    (now : Nat) :
    (specAllowed task.status new_status = true ↔
      new_status ∈ valid_transitions task.status) ∧
    (specAllowed task.status new_status = false →
      (transition db task new_status now).2 = db ∧
      ∃ msg, (transition db task new_status now).1 = .error msg) ∧
    (specAllowed task.status new_status = true →
      ∃ t', (transition db task new_status now).1 = .ok t' ∧
        t'.status = new_status ∧
        (new_status = .running → t'.started_at = some now) ∧
        ((new_status = .done ∨ new_status = .failed ∨ new_status = .cancelled) →
          t'.completed_at = some now) ∧
        (new_status ≠ .running → t'.started_at = task.started_at) ∧
        (¬(new_status = .done ∨ new_status = .failed ∨ new_status = .cancelled) →
          t'.completed_at = task.completed_at)) := by
  refine ⟨specAllowed_eq _ _, ?_, ?_⟩
  · intro h
    have hm : new_status ∉ valid_transitions task.status := fun hmem => by
      simp [(specAllowed_eq _ _).mpr hmem] at h
    exact ⟨by simp [transition, hm],
      "Cannot transition task from " ++ task.status.value ++ " to " ++ new_status.value,
      by simp [transition, hm]⟩
  · intro h
    have hm : new_status ∈ valid_transitions task.status := (specAllowed_eq _ _).mp h
    refine ⟨transitionTask task new_status now, by simp [transition, hm], ?_⟩
    cases new_status <;> simp [transitionTask]

/-- Witness for C2: ready → running is allowed and stamps `started_at`;
done → ready is refused with the store unchanged. -/
theorem c2_transition_matrix_witness :
    (∃ t', (transition {} { id := 1, status := .ready } .running 7).1 = .ok t' ∧
      t'.status = .running ∧ (TaskStatus.running = .running → t'.started_at = some 7) ∧
      ((TaskStatus.running = .done ∨ TaskStatus.running = .failed
        ∨ TaskStatus.running = .cancelled) → t'.completed_at = some 7) ∧
      (TaskStatus.running ≠ .running → t'.started_at = Task.started_at { id := 1, status := .ready }) ∧
      (¬(TaskStatus.running = .done ∨ TaskStatus.running = .failed
        ∨ TaskStatus.running = .cancelled) →
        t'.completed_at = Task.completed_at { id := 1, status := .ready })) ∧
    ((transition {} { id := 2, status := .done } .ready 7).2 = {} ∧
      ∃ msg, (transition {} { id := 2, status := .done } .ready 7).1 = .error msg) :=
  ⟨(c2_transition_matrix {} { id := 1, status := .ready } .running 7).2.2 rfl,
   (c2_transition_matrix {} { id := 2, status := .done } .ready 7).2.1 rfl⟩

/-- C5 as amended: `retry_task` succeeds exactly when `retry_count` is
below `max_retries` — the task's status is not examined — and on success
it increments the retry counter, clears the run timestamps and the
workspace assignment, and puts the task in ready; when retries are
exhausted it returns nothing and the task row is left untouched. -/
theorem c5_retry_task (db : DB) (task : Task) :
    (task.retry_count ≥ task.max_retries → retry_task db task = none) ∧
    (task.retry_count < task.max_retries →
      ∃ t', retry_task db task = some (t', db.updateTask t') ∧
        t'.status = .ready ∧ t'.retry_count = task.retry_count + 1 ∧
        t'.started_at = none ∧ t'.completed_at = none ∧ t'.workspace = "" ∧
        t'.id = task.id ∧ t'.title = task.title ∧
        t'.block_reason = task.block_reason) := by
  constructor
  · intro h; simp [retry_task, h]
  · intro h
    refine ⟨{ task with
        retry_count := task.retry_count + 1
        status := .ready
        started_at := none
        completed_at := none
        workspace := "" }, ?_, ?_⟩
    · simp [retry_task, Nat.not_le.mpr h]
    · simp

/-- Witness for C5: a failed task with retries left is retried; one with
retries exhausted is refused. -/
theorem c5_retry_task_witness :
    (∃ t', retry_task {} { id := 3, status := .failed, retry_count := 0 }
        = some (t', DB.updateTask {} t') ∧
      t'.status = .ready ∧ t'.retry_count = 0 + 1 ∧
      t'.started_at = none ∧ t'.completed_at = none ∧ t'.workspace = "" ∧
      t'.id = Task.id { id := 3, status := .failed, retry_count := 0 } ∧
      t'.title = Task.title { id := 3, status := .failed, retry_count := 0 } ∧
      t'.block_reason = Task.block_reason { id := 3, status := .failed, retry_count := 0 }) ∧
    retry_task {} { id := 4, status := .failed, retry_count := 2 } = none :=
  ⟨(c5_retry_task {} { id := 3, status := .failed, retry_count := 0 }).2 (by decide),
   (c5_retry_task {} { id := 4, status := .failed, retry_count := 2 }).1 (by decide)⟩

/-- C5's counterexample: the claim says a retry succeeds only when the
status is failed, but `retry_task` never checks the status: a task in
status done with retries remaining is put back in ready. -/
theorem c5_counterexample :
    c5Task.status = .done ∧
    (retry_task c5DB c5Task).map (fun p => p.1.status) = some .ready := by
  constructor <;> rfl

/-- C3: a line that is not parseable JSON and does not begin with `$` or
`>` after stripping is never killed, whatever it contains; a JSON record
naming a shell-execution tool whose string input is
`git push --force origin main` is killed. -/
theorem c3_check_agent_output :
    (∀ (cfg : GuardrailConfig) (line : OutputLine),
      line.parsed = none →
      pyStartsWith (pyStrip line.raw) "$" = false →
      pyStartsWith (pyStrip line.raw) ">" = false →
      (check_agent_output cfg line).should_kill = false) ∧
    (check_agent_output {} { raw := "", parsed := some c3KillJson }).should_kill
      = true := by
  constructor
  · intro cfg line h1 h2 h3
    simp [check_agent_output, h1, h2, h3]
  · decide

/-- Witness for C3: the prose line containing `git push --force` is not
killed; the parsed `run_command` record is. -/
theorem c3_check_agent_output_witness :
    (check_agent_output {} c3ProseLine).should_kill = false ∧
    (check_agent_output {} { raw := "", parsed := some c3KillJson }).should_kill
      = true :=
  ⟨c3_check_agent_output.1 {} c3ProseLine rfl (by decide) (by decide),
   c3_check_agent_output.2⟩

/-- C7: `can_start_agent` refuses exactly when the manager is paused, the
active-agent count has reached the concurrency cap, today's request
count has reached limit − reserve, or the usage percentage has reached
the pause threshold (threshold inclusive); the latter two refusals set
the paused flag; in all other cases it returns (true, "OK") and leaves
the state unchanged. -/
theorem c7_can_start_agent (qm : QuotaManager) (agent_used : Nat) :
    ((can_start_agent qm agent_used).1.1 = false ↔
      (qm.paused = true ∨ qm.active_agents ≥ qm.max_concurrent ∨
        (agent_used : Int) ≥ (qm.daily_agent_requests : Int) - qm.reserve_requests ∨
        ((agent_used : ℚ) / (qm.daily_agent_requests : ℚ)) * 100
          ≥ (qm.pause_at_percent : ℚ))) ∧
    (qm.paused = false → qm.active_agents < qm.max_concurrent →
      ((agent_used : Int) ≥ (qm.daily_agent_requests : Int) - qm.reserve_requests ∨
        ((agent_used : ℚ) / (qm.daily_agent_requests : ℚ)) * 100
          ≥ (qm.pause_at_percent : ℚ)) →
      (can_start_agent qm agent_used).2.paused = true) ∧
    (¬(qm.paused = true ∨ qm.active_agents ≥ qm.max_concurrent ∨
        (agent_used : Int) ≥ (qm.daily_agent_requests : Int) - qm.reserve_requests ∨
        ((agent_used : ℚ) / (qm.daily_agent_requests : ℚ)) * 100
          ≥ (qm.pause_at_percent : ℚ)) →
      can_start_agent qm agent_used = ((true, "OK"), qm)) := by
  simp only [can_start_agent]
  split_ifs with h1 h2 h3 h4
  · exact ⟨by simp [h1], fun _ _ _ => h1, fun hn => absurd (Or.inl h1) hn⟩
  · refine ⟨⟨fun _ => Or.inr (Or.inl h2), fun _ => rfl⟩, ?_, ?_⟩
    · intro _ hlt _
      exact absurd h2 (Nat.not_le.mpr hlt)
    · exact fun hn => absurd (Or.inr (Or.inl h2)) hn
  · exact ⟨⟨fun _ => Or.inr (Or.inr (Or.inl h3)), fun _ => rfl⟩,
      fun _ _ _ => rfl, fun hn => absurd (Or.inr (Or.inr (Or.inl h3))) hn⟩
  · exact ⟨⟨fun _ => Or.inr (Or.inr (Or.inr h4)), fun _ => rfl⟩,
      fun _ _ _ => rfl, fun hn => absurd (Or.inr (Or.inr (Or.inr h4))) hn⟩
  · refine ⟨⟨fun hfk => by simp at hfk, fun hor => ?_⟩, ?_, fun _ => rfl⟩
    · rcases hor with hp | hc | he | hq
      · exact absurd hp h1
      · exact absurd hc h2
      · exact absurd he h3
      · exact absurd hq h4
    · intro _ _ hor
      rcases hor with he | hq
      · exact absurd he h3
      · exact absurd hq h4

/-- Witness for C7 at the default configuration: 180 of 200 requests used
reaches limit − reserve, so the start is refused and the manager pauses
itself. -/
theorem c7_can_start_agent_witness :
    (can_start_agent {} 180).1.1 = false ∧ (can_start_agent {} 180).2.paused = true :=
  ⟨(c7_can_start_agent {} 180).1.mpr (Or.inr (Or.inr (Or.inl (by decide)))),
   (c7_can_start_agent {} 180).2.1 rfl (by decide) (Or.inl (by decide))⟩

/-- Inserting into the stable sort permutes: the result is the element
consed on, up to permutation. -/
theorem insertByRank_perm (t : Task) (l : List Task) :
    (insertByRank t l).Perm (t :: l) := by
  induction l with
  | nil => simp [insertByRank]
  | cons h tl ih =>
    rw [insertByRank]
    split
    · exact (ih.cons h).trans (List.Perm.swap t h tl)
    · exact List.Perm.refl _

/-- The stable sort is a permutation of its input. -/
theorem stableSortByRank_perm (l : List Task) : (stableSortByRank l).Perm l := by
  induction l with
  | nil => exact List.Perm.refl _
  | cons h tl ih => exact (insertByRank_perm h (stableSortByRank tl)).trans (ih.cons h)

/-- Inserting an element whose id is below every id in a lex-sorted list
keeps the list lex-sorted. -/
theorem insertByRank_pairwise (t : Task) (l : List Task)
    (hl : l.Pairwise taskLex) (hid : ∀ u ∈ l, t.id < u.id) :
    (insertByRank t l).Pairwise taskLex := by
  induction l with
  | nil => simp [insertByRank, taskLex]
  | cons h tl ih =>
    rcases List.pairwise_cons.mp hl with ⟨hh, htl⟩
    rw [insertByRank]
    split
    case isTrue hlt =>
      refine List.Pairwise.cons ?_ (ih htl (fun u hu => hid u (List.mem_cons_of_mem _ hu)))
      intro v hv
      have hv' : v = t ∨ v ∈ tl := by
        have := (insertByRank_perm t tl).mem_iff.mp hv
        simpa using this
      rcases hv' with rfl | hv'
      · exact Or.inl hlt
      · exact hh v hv'
    case isFalse hge =>
      have hle : rankKey t ≤ rankKey h := Nat.not_lt.mp hge
      refine List.Pairwise.cons ?_ hl
      intro v hv
      rcases List.mem_cons.mp hv with rfl | hv'
      · rcases Nat.lt_or_ge (rankKey t) (rankKey v) with hlt | hge'
        · exact Or.inl hlt
        · exact Or.inr ⟨Nat.le_antisymm hle hge', hid v (List.mem_cons_self _ _)⟩
      · rcases hh v hv' with hlt | ⟨heq, _⟩
        · exact Or.inl (Nat.lt_of_le_of_lt hle hlt)
        · rcases Nat.lt_or_ge (rankKey t) (rankKey v) with hlt2 | hge2
          · exact Or.inl hlt2
          · exact Or.inr ⟨Nat.le_antisymm (heq ▸ hle) hge2,
              hid v (List.mem_cons_of_mem _ hv')⟩

/-- The stable sort of a list with strictly ascending ids is sorted in
the priority-then-id lex order. -/
theorem stableSortByRank_pairwise (l : List Task)
    (h : l.Pairwise (fun a b => a.id < b.id)) :
    (stableSortByRank l).Pairwise taskLex := by
  induction l with
  | nil => simp [stableSortByRank]
  | cons x xs ih =>
    rcases List.pairwise_cons.mp h with ⟨hx, hxs⟩
    rw [stableSortByRank]
    refine insertByRank_pairwise _ _ (ih hxs) ?_
    intro u hu
    exact hx u ((stableSortByRank_perm xs).mem_iff.mp hu)

/-- C9: `get_ready_tasks` returns exactly the ready tasks, ordered by
priority rank (critical < high < normal < low) with ties broken by
ascending insertion id; on the spec's three-task example the order is
Critical, Normal, Low. -/
theorem c9_get_ready_tasks :
    (∀ db : DB, db.tasks.Pairwise (fun a b => a.id < b.id) →
      (get_ready_tasks db).Perm (db.tasks.filter (fun t => t.status == .ready)) ∧
      (get_ready_tasks db).Pairwise taskLex ∧
      ∀ t ∈ get_ready_tasks db, t.status = .ready) ∧
    (get_ready_tasks c9ExampleDB).map Task.title = ["Critical", "Normal", "Low"] := by
  constructor
  · intro db hdb
    refine ⟨stableSortByRank_perm _, stableSortByRank_pairwise _ (hdb.filter _), ?_⟩
    intro t ht
    have := (stableSortByRank_perm _).mem_iff.mp ht
    simpa using (List.of_mem_filter this)
  · rfl

/-- Witness for C9 on the spec's example store (ids 1, 2, 3). -/
theorem c9_get_ready_tasks_witness :
    (get_ready_tasks c9ExampleDB).Perm
      (c9ExampleDB.tasks.filter (fun t => t.status == .ready)) ∧
    (get_ready_tasks c9ExampleDB).Pairwise taskLex :=
  ⟨(c9_get_ready_tasks.1 c9ExampleDB (by decide)).1,
   (c9_get_ready_tasks.1 c9ExampleDB (by decide)).2.1⟩

/-- C1 as amended: provided at least one task is in status running, a
single recovery sweep marks every running task failed with the recovery
note, leaves no task running, marks every starting/running agent failed,
leaves no agent starting or running, and regresses every PR lifecycle
referenced by a running task's `prl_id` metadata to planning; when no
task is running, the sweep returns 0 and leaves the store untouched
(in particular stuck agents are then not cleaned up). -/
theorem c1_recover_stuck_tasks (db : DB) (now : Nat) :
    ((∃ t ∈ db.tasks, t.status = .running) →
      (∀ t ∈ db.tasks, t.status = .running →
        recoverMarkTask now t ∈ (recover_stuck_tasks db now).2.tasks) ∧
      (∀ t ∈ (recover_stuck_tasks db now).2.tasks, t.status ≠ .running) ∧
      (∀ a ∈ db.agents, a.status = .starting ∨ a.status = .running →
        recoverMarkAgent now a ∈ (recover_stuck_tasks db now).2.agents) ∧
      (∀ a ∈ (recover_stuck_tasks db now).2.agents,
        a.status ≠ .starting ∧ a.status ≠ .running) ∧
      (∀ p ∈ db.prls,
        (∃ t ∈ db.tasks, t.status = .running ∧ metaPrlId t = some (p.id : Int)) →
        { p with stage := .planning } ∈ (recover_stuck_tasks db now).2.prls)) ∧
    ((∀ t ∈ db.tasks, t.status ≠ .running) →
      recover_stuck_tasks db now = (0, db)) := by
  constructor
  · rintro ⟨t0, ht0, hrun0⟩
    have hmem0 : t0 ∈ db.tasks.filter (fun t => t.status == .running) :=
      List.mem_filter.mpr ⟨ht0, by simp [hrun0]⟩
    have hne : (db.tasks.filter (fun t => t.status == .running)).isEmpty = false := by
      rcases hfe : db.tasks.filter (fun t => t.status == .running) with _ | ⟨a, l⟩
      · rw [hfe] at hmem0; cases hmem0
      · rw [hfe]; rfl
    simp only [recover_stuck_tasks, hne, Bool.false_eq_true, if_false]
    refine ⟨?_, ?_, ?_, ?_, ?_⟩
    · intro t ht hrun
      refine List.mem_map.mpr ⟨t, ht, ?_⟩
      have hc : ((db.tasks.filter
          (fun t => t.status == .running)).map Task.id).contains t.id = true :=
        List.elem_iff.mpr
          (List.mem_map.mpr ⟨t, List.mem_filter.mpr ⟨ht, by simp [hrun]⟩, rfl⟩)
      exact if_pos hc
    · intro t' ht'
      rcases List.mem_map.mp ht' with ⟨u, hu, rfl⟩
      by_cases hcu :
          ((db.tasks.filter (fun t => t.status == .running)).map Task.id).contains u.id
            = true
      · rw [if_pos hcu]
        simp [recoverMarkTask]
      · rw [if_neg hcu]
        intro hr
        exact hcu (List.elem_iff.mpr
          (List.mem_map.mpr ⟨u, List.mem_filter.mpr ⟨hu, by simp [hr]⟩, rfl⟩))
    · intro a ha hst
      refine List.mem_map.mpr ⟨a, ha, ?_⟩
      have hcb : (a.status == AgentStatus.starting || a.status == AgentStatus.running)
          = true := by
        rcases hst with h | h <;> simp [h]
      exact if_pos hcb
    · intro a' ha'
      rcases List.mem_map.mp ha' with ⟨b, hb, rfl⟩
      by_cases hcb : (b.status == AgentStatus.starting || b.status == AgentStatus.running)
          = true
      · rw [if_pos hcb]
        simp [recoverMarkAgent]
      · rw [if_neg hcb]
        simp only [Bool.or_eq_true, beq_iff_eq] at hcb
        push_neg at hcb
        exact hcb
    · rintro p hp ⟨t, ht, hrun, hmeta⟩
      refine List.mem_map.mpr ⟨p, hp, ?_⟩
      have hc : ((db.tasks.filter
          (fun t => t.status == .running)).filterMap metaPrlId).contains (p.id : Int)
          = true :=
        List.elem_iff.mpr
          (List.mem_filterMap.mpr ⟨t, List.mem_filter.mpr ⟨ht, by simp [hrun]⟩, hmeta⟩)
      exact if_pos hc
  · intro hno
    have hfe : db.tasks.filter (fun t => t.status == .running) = [] :=
      List.filter_eq_nil_iff.mpr (fun a ha => by simp [hno a ha])
    simp [recover_stuck_tasks, hfe]

/-- Witness for C1 on a crashed store with one running task referencing
lifecycle 7 and one starting agent. -/
theorem c1_recover_stuck_tasks_witness :
    (∀ t ∈ c1BusyDB.tasks, t.status = .running →
      recoverMarkTask 9 t ∈ (recover_stuck_tasks c1BusyDB 9).2.tasks) ∧
    (∀ a ∈ (recover_stuck_tasks c1BusyDB 9).2.agents,
      a.status ≠ .starting ∧ a.status ≠ .running) :=
  ⟨((c1_recover_stuck_tasks c1BusyDB 9).1
      ⟨{ id := 1, title := "T", status := .running,
         metadata := [("prl_id", Json.num 7)] }, by simp [c1BusyDB], rfl⟩).1,
   ((c1_recover_stuck_tasks c1BusyDB 9).1
      ⟨{ id := 1, title := "T", status := .running,
         metadata := [("prl_id", Json.num 7)] }, by simp [c1BusyDB], rfl⟩).2.2.2.1⟩

/-- C1's counterexample: on a state with no running task but a running
agent, the sweep returns early and the agent is left in status running,
so a single run does not transition every starting/running agent to
failed. -/
theorem c1_counterexample :
    c1DB.agents.map Agent.status = [.running] ∧
    recover_stuck_tasks c1DB 5 = (0, c1DB) ∧
    (recover_stuck_tasks c1DB 5).2.agents.map Agent.status = [.running] :=
  ⟨rfl, rfl, rfl⟩

/-! ### Characterizing the unblock sweep -/

theorem unblockTask_id (u : Task) : (unblockTask u).id = u.id := rfl

theorem flipBy_id (S : List Nat) (u : Task) : (flipBy S u).id = u.id := by
  unfold flipBy; split <;> rfl

theorem flipBy_created (S : List Nat) (u : Task) :
    (flipBy S u).created_at = u.created_at := by
  unfold flipBy; split <;> rfl

/-- `find?` on an id-keyed predicate commutes with an id-preserving map. -/
theorem find?_map_id_pres (f : Task → Task) (hf : ∀ t, (f t).id = t.id)
    (l : List Task) (d : Nat) :
    (l.map f).find? (fun t => t.id == d) = (l.find? (fun t => t.id == d)).map f := by
  induction l with
  | nil => rfl
  | cons a l ih =>
    by_cases h : (a.id == d) = true
    · rw [List.map_cons,
        List.find?_cons_of_pos (p := fun t : Task => t.id == d) _
          (by show ((f a).id == d) = true; rw [hf]; exact h),
        List.find?_cons_of_pos (p := fun t : Task => t.id == d) _ h, Option.map_some']
    · rw [List.map_cons,
        List.find?_cons_of_neg (p := fun t : Task => t.id == d) _
          (by show ¬((f a).id == d) = true; rw [hf]; exact h),
        List.find?_cons_of_neg (p := fun t : Task => t.id == d) _ h, ih]

theorem getTask_mkSweepDB (db : DB) (S : List Nat) (d : Nat) :
    (mkSweepDB db S).getTask d = (db.getTask d).map (flipBy S) :=
  find?_map_id_pres (flipBy S) (flipBy_id S) db.tasks d

theorem getTask_updateTask (db : DB) (t : Task) (d : Nat) :
    (db.updateTask t).getTask d
      = (db.getTask d).map (fun u =>
          if u.id == t.id then { t with created_at := u.created_at } else u) := by
  refine find?_map_id_pres _ ?_ db.tasks d
  intro u
  by_cases h : (u.id == t.id) = true
  · rw [if_pos h]; exact (beq_iff_eq.mp h).symm
  · rw [if_neg h]

/-- In a list with pairwise-distinct ids, searching for a member's id
finds that member. -/
theorem find?_id_of_mem_nodup (l : List Task) (hnd : (l.map Task.id).Nodup)
    (t : Task) (ht : t ∈ l) : l.find? (fun u => u.id == t.id) = some t := by
  induction l with
  | nil => cases ht
  | cons a l ih =>
    rw [List.map_cons, List.nodup_cons] at hnd
    rcases List.mem_cons.mp ht with rfl | htl
    · rw [List.find?_cons_of_pos (p := fun u : Task => u.id == t.id) _ (by simp)]
    · have hid : ¬(a.id == t.id) = true := by
        simp only [beq_iff_eq]
        intro he
        exact hnd.1 (he ▸ List.mem_map.mpr ⟨t, htl, rfl⟩)
      rw [List.find?_cons_of_neg (p := fun u : Task => u.id == t.id) _ hid]
      exact ih hnd.2 htl

/-- With pairwise-distinct ids, looking up a member's id finds it. -/
theorem getTask_of_mem_nodup (db : DB) (hnd : (db.tasks.map Task.id).Nodup)
    (t : Task) (ht : t ∈ db.tasks) : db.getTask t.id = some t :=
  find?_id_of_mem_nodup db.tasks hnd t ht

/-- With pairwise-distinct ids, two members with the same id coincide. -/
theorem mem_id_inj (db : DB) (hnd : (db.tasks.map Task.id).Nodup)
    {a b : Task} (ha : a ∈ db.tasks) (hb : b ∈ db.tasks) (hid : a.id = b.id) :
    a = b := by
  have h1 := getTask_of_mem_nodup db hnd a ha
  have h2 := getTask_of_mem_nodup db hnd b hb
  rw [hid] at h1
  exact Option.some.inj (h1.symm.trans h2)

/-- Flipping blocked rows to ready never changes which rows are done. -/
theorem depDone_mkSweepDB (db : DB) (S : List Nat)
    (hnd : (db.tasks.map Task.id).Nodup)
    (hS : ∀ i ∈ S, ∃ t ∈ db.tasks, t.id = i ∧ t.status = .blocked) (d : Nat) :
    depDone (mkSweepDB db S) d = depDone db d := by
  unfold depDone
  rw [getTask_mkSweepDB]
  cases h : db.getTask d with
  | none => rfl
  | some u =>
    rw [Option.map_some']
    by_cases hc : S.contains u.id = true
    · have hu : u ∈ db.tasks := List.mem_of_find?_eq_some h
      rcases hS u.id (List.elem_iff.mp hc) with ⟨t, htmem, htid, htbl⟩
      have hut : t = u := mem_id_inj db hnd htmem hu htid
      rw [flipBy, if_pos hc]
      subst hut
      simp [unblockTask, htbl]
    · rw [flipBy, if_neg hc]

/-- The prerequisite check is insensitive to the sweep's flips. -/
theorem allDepsDone_mkSweepDB (db : DB) (S : List Nat)
    (hnd : (db.tasks.map Task.id).Nodup)
    (hS : ∀ i ∈ S, ∃ t ∈ db.tasks, t.id = i ∧ t.status = .blocked)
    (deps : List Nat) :
    allDepsDone (mkSweepDB db S) deps = allDepsDone db deps := by
  unfold allDepsDone
  rw [funext (depDone_mkSweepDB db S hnd hS)]

/-- Flipping one more blocked member is the same as extending the flip
set. -/
theorem updateTask_mkSweepDB (db : DB) (S : List Nat)
    (hnd : (db.tasks.map Task.id).Nodup)
    (t : Task) (ht : t ∈ db.tasks) :
    (mkSweepDB db S).updateTask (unblockTask t) = mkSweepDB db (S ++ [t.id]) := by
  unfold DB.updateTask mkSweepDB
  simp only [List.map_map]
  congr 1
  apply List.map_congr_left
  intro u hu
  show (if ((flipBy S u).id == (unblockTask t).id) = true
      then { unblockTask t with created_at := (flipBy S u).created_at }
      else flipBy S u)
    = flipBy (S ++ [t.id]) u
  rw [flipBy_id, unblockTask_id, flipBy_created]
  by_cases hid : (u.id == t.id) = true
  · have hut : u = t := mem_id_inj db hnd hu ht (beq_iff_eq.mp hid)
    subst hut
    rw [if_pos hid]
    show unblockTask u = flipBy (S ++ [u.id]) u
    rw [flipBy, if_pos (List.elem_iff.mpr (by simp))]
  · rw [if_neg hid, flipBy, flipBy]
    have hco : (S ++ [t.id]).contains u.id = S.contains u.id := by
      have hne : ¬ u.id = t.id := by simpa using hid
      cases hS1 : S.contains u.id with
      | false =>
        refine Bool.eq_false_iff.mpr ?_
        intro hmem
        rcases List.mem_append.mp (List.elem_iff.mp hmem) with h1 | h2
        · have hx : S.contains u.id = true := List.elem_iff.mpr h1
          rw [hS1] at hx
          cases hx
        · exact hne (by simpa using h2)
      | true =>
        exact List.elem_iff.mpr (List.mem_append.mpr (Or.inl (List.elem_iff.mp hS1)))
    rw [hco]

/-- Extending the iff over a skipped snapshot head. -/
theorem skip_head_iff (db : DB) (c : Nat) (t u : Task) (rest : List Task)
    (S S' : List Nat) (hflt : sweepFlips db c t = false)
    (h : u.id ∈ S' ↔ u.id ∈ S ∨ (u ∈ rest ∧ sweepFlips db c u = true)) :
    (u.id ∈ S' ↔ u.id ∈ S ∨ (u ∈ t :: rest ∧ sweepFlips db c u = true)) := by
  rw [h]
  constructor
  · rintro (h1 | ⟨hm, hf⟩)
    · exact Or.inl h1
    · exact Or.inr ⟨List.mem_cons_of_mem _ hm, hf⟩
  · rintro (h1 | ⟨hm, hf⟩)
    · exact Or.inl h1
    · rcases List.mem_cons.mp hm with rfl | hm'
      · rw [hflt] at hf; cases hf
      · exact Or.inr ⟨hm', hf⟩

/-- The loop of `_unblock_dependents`, run over any snapshot of blocked
members starting from any already-flipped set, flips exactly the
additional snapshot members whose loop condition holds against the
original store. -/
theorem sweep_foldl_inv (db : DB) (c : Nat)
    (hnd : (db.tasks.map Task.id).Nodup) :
    ∀ (snap : List Task) (S : List Nat),
      (∀ t ∈ snap, t ∈ db.tasks ∧ t.status = .blocked) →
      (∀ i ∈ S, ∃ t ∈ db.tasks, t.id = i ∧ t.status = .blocked) →
      ∃ S' : List Nat,
        snap.foldl (sweepStep c) (mkSweepDB db S) = mkSweepDB db S' ∧
        (∀ i ∈ S', ∃ t ∈ db.tasks, t.id = i ∧ t.status = .blocked) ∧
        (∀ u ∈ db.tasks,
          (u.id ∈ S' ↔ u.id ∈ S ∨ (u ∈ snap ∧ sweepFlips db c u = true))) := by
  intro snap
  induction snap with
  | nil =>
    intro S hsnap hS
    exact ⟨S, rfl, hS, fun u _ => by simp⟩
  | cons t rest ih =>
    intro S hsnap hS
    obtain ⟨htmem, htbl⟩ := hsnap t (List.mem_cons_self _ _)
    have hrest : ∀ u ∈ rest, u ∈ db.tasks ∧ u.status = .blocked :=
      fun u hu => hsnap u (List.mem_cons_of_mem _ hu)
    rw [List.foldl_cons]
    by_cases h1 : (t.block_reason != BlockReason.dependency.value) = true
    · have hstep : sweepStep c (mkSweepDB db S) t = mkSweepDB db S := by
        unfold sweepStep; rw [if_pos h1]
      rw [hstep]
      rcases ih S hrest hS with ⟨S', he, hS', hiff⟩
      refine ⟨S', he, hS', fun u hu => ?_⟩
      refine skip_head_iff db c t u rest S S' ?_ (hiff u hu)
      unfold sweepFlips
      have hb : (t.block_reason == BlockReason.dependency.value) = false := by
        simpa [bne] using h1
      rw [hb]
      rfl
    · have h1' : (t.block_reason == BlockReason.dependency.value) = true := by
        have hx : (t.block_reason != BlockReason.dependency.value) = false :=
          Bool.eq_false_iff.mpr h1
        simpa [bne] using hx
      by_cases h2 : (t.depends_on.contains c) = true
      · by_cases h3 : allDepsDone (mkSweepDB db S) t.depends_on = true
        · have h3' : allDepsDone db t.depends_on = true := by
            rw [← allDepsDone_mkSweepDB db S hnd hS]; exact h3
          have hstep : sweepStep c (mkSweepDB db S) t
              = mkSweepDB db (S ++ [t.id]) := by
            unfold sweepStep
            have hc2 : ¬((!(t.depends_on.contains c)) = true) := by
              rw [h2]; simp
            rw [if_neg h1, if_neg hc2, if_pos h3,
              updateTask_mkSweepDB db S hnd t htmem]
          rw [hstep]
          have hSnew : ∀ i ∈ S ++ [t.id],
              ∃ u ∈ db.tasks, u.id = i ∧ u.status = .blocked := by
            intro i hi
            rcases List.mem_append.mp hi with hiS | hit
            · exact hS i hiS
            · exact ⟨t, htmem, (List.mem_singleton.mp hit).symm, htbl⟩
          rcases ih (S ++ [t.id]) hrest hSnew with ⟨S', he, hS', hiff⟩
          refine ⟨S', he, hS', fun u hu => ?_⟩
          rw [hiff u hu]
          have hft : sweepFlips db c t = true := by
            unfold sweepFlips; rw [h1', h2, h3']; rfl
          constructor
          · rintro (h | ⟨hm, hf⟩)
            · rcases List.mem_append.mp h with hiS | hit
              · exact Or.inl hiS
              · have hut : u = t := mem_id_inj db hnd hu htmem (by simpa using hit)
                exact Or.inr ⟨by rw [hut]; exact List.mem_cons_self _ _,
                  by rw [hut]; exact hft⟩
            · exact Or.inr ⟨List.mem_cons_of_mem _ hm, hf⟩
          · rintro (h | ⟨hm, hf⟩)
            · exact Or.inl (List.mem_append.mpr (Or.inl h))
            · rcases List.mem_cons.mp hm with rfl | hm'
              · exact Or.inl (List.mem_append.mpr (Or.inr (by simp)))
              · exact Or.inr ⟨hm', hf⟩
        · have h3' : allDepsDone db t.depends_on = false := by
            rw [← allDepsDone_mkSweepDB db S hnd hS]
            exact Bool.eq_false_iff.mpr h3
          have hstep : sweepStep c (mkSweepDB db S) t = mkSweepDB db S := by
            unfold sweepStep
            have hc2 : ¬((!(t.depends_on.contains c)) = true) := by
              rw [h2]; simp
            rw [if_neg h1, if_neg hc2, if_neg h3]
          rw [hstep]
          rcases ih S hrest hS with ⟨S', he, hS', hiff⟩
          refine ⟨S', he, hS', fun u hu => ?_⟩
          refine skip_head_iff db c t u rest S S' ?_ (hiff u hu)
          unfold sweepFlips
          rw [h3']
          simp
      · have hstep : sweepStep c (mkSweepDB db S) t = mkSweepDB db S := by
          unfold sweepStep
          have hc2 : (t.depends_on.contains c) = false := Bool.eq_false_iff.mpr h2
          rw [if_neg h1, if_pos (by rw [hc2]; rfl)]
        rw [hstep]
        rcases ih S hrest hS with ⟨S', he, hS', hiff⟩
        refine ⟨S', he, hS', fun u hu => ?_⟩
        refine skip_head_iff db c t u rest S S' ?_ (hiff u hu)
        unfold sweepFlips
        rw [Bool.eq_false_iff.mpr h2]
        simp

/-- The sweep flips exactly the blocked rows whose loop condition holds
against the pre-sweep store. -/
theorem unblockDependents_spec (c : Nat) (db : DB)
    (hnd : (db.tasks.map Task.id).Nodup) :
    ∃ S' : List Nat,
      unblockDependents c db = mkSweepDB db S' ∧
      (∀ i ∈ S', ∃ t ∈ db.tasks, t.id = i ∧ t.status = .blocked) ∧
      (∀ u ∈ db.tasks,
        (u.id ∈ S' ↔ u.status = .blocked ∧ sweepFlips db c u = true)) := by
  have hdb : mkSweepDB db [] = db := by
    unfold mkSweepDB
    have : db.tasks.map (flipBy []) = db.tasks := by
      have hid : ∀ u ∈ db.tasks, flipBy [] u = u := fun u _ => rfl
      rw [List.map_congr_left hid, List.map_id']
    rw [this]
  have hsnap : ∀ t ∈ db.listTasks .blocked, t ∈ db.tasks ∧ t.status = .blocked := by
    intro t ht
    have := List.mem_filter.mp ht
    exact ⟨this.1, by simpa using this.2⟩
  rcases sweep_foldl_inv db c hnd (db.listTasks .blocked) [] hsnap (by simp) with
    ⟨S', he, hS', hiff⟩
  refine ⟨S', ?_, hS', ?_⟩
  · rw [unblockDependents, ← he, hdb]
  · intro u hu
    rw [hiff u hu]
    constructor
    · rintro (h | ⟨hm, hf⟩)
      · cases h
      · exact ⟨by simpa using (List.mem_filter.mp hm).2, hf⟩
    · rintro ⟨hbl, hf⟩
      exact Or.inr ⟨List.mem_filter.mpr ⟨hu, by simp [hbl]⟩, hf⟩

/-- Rows of the post-sweep store, looked up by id. -/
theorem unblockDependents_getTask (c : Nat) (db : DB)
    (hnd : (db.tasks.map Task.id).Nodup) (t : Task) (ht : t ∈ db.tasks) :
    (unblockDependents c db).getTask t.id = some t ∨
    ((unblockDependents c db).getTask t.id = some (unblockTask t) ∧
      t.status = .blocked ∧ sweepFlips db c t = true) := by
  rcases unblockDependents_spec c db hnd with ⟨S', he, _, hiff⟩
  rw [he, getTask_mkSweepDB, getTask_of_mem_nodup db hnd t ht, Option.map_some']
  by_cases hc : S'.contains t.id = true
  · rcases (hiff t ht).mp (List.elem_iff.mp hc) with ⟨hbl, hf⟩
    exact Or.inr ⟨by rw [flipBy, if_pos hc], hbl, hf⟩
  · exact Or.inl (by rw [flipBy, if_neg hc])

/-- The sweep never changes which prerequisite ids count as done. -/
theorem depDone_unblockDependents (c : Nat) (db : DB)
    (hnd : (db.tasks.map Task.id).Nodup) (d : Nat) :
    depDone (unblockDependents c db) d = depDone db d := by
  rcases unblockDependents_spec c db hnd with ⟨S', he, hS', _⟩
  rw [he]
  exact depDone_mkSweepDB db S' hnd hS' d

theorem contains_eq_true_of_mem {l : List Nat} {a : Nat} (h : a ∈ l) :
    l.contains a = true :=
  List.elem_iff.mpr h

theorem transitionTask_id (t : Task) (s : TaskStatus) (n : Nat) :
    (transitionTask t s n).id = t.id := by
  unfold transitionTask
  split_ifs <;> rfl

theorem updateTask_ids (db : DB) (t : Task) :
    (db.updateTask t).tasks.map Task.id = db.tasks.map Task.id := by
  unfold DB.updateTask
  rw [List.map_map]
  refine List.map_congr_left ?_
  intro u _
  show (if (u.id == t.id) = true then { t with created_at := u.created_at } else u).id
    = u.id
  by_cases h : (u.id == t.id) = true
  · rw [if_pos h]; exact (beq_iff_eq.mp h).symm
  · rw [if_neg h]

/-- Reduction of a valid running → done transition: update the row, then
run the unblock sweep for the completed id. -/
theorem transition_done_eq (db : DB) (task : Task) (now : Nat)
    (hrun : task.status = .running) :
    (transition db task .done now).2
      = unblockDependents task.id (db.updateTask (transitionTask task .done now)) := by
  have hdone_mem : TaskStatus.done ∈ valid_transitions task.status := by
    rw [hrun]; decide
  unfold transition
  rw [if_neg (not_not_intro hdone_mem)]
  simp [transitionTask_id]

/-- C6 as amended: after a running task transitions to done, every task
that was blocked with block-reason dependency and lists the completed
task among its prerequisites ends up ready with an empty block-reason
exactly when all of its prerequisites are done (a missing prerequisite
counting as not done); and every task still blocked with block-reason
dependency that lists the completed task has at least one prerequisite
not in status done.  (The original claim asserted the latter for every
blocked-dependency task, examined or not.) -/
theorem c6_unblock_sweep (db : DB) (task : Task) (now : Nat)
    (hnd : (db.tasks.map Task.id).Nodup)
    (htask : db.getTask task.id = some task)
    (hrun : task.status = .running) :
    (∀ t ∈ db.tasks, t.status = .blocked → t.block_reason = "dependency" →
      task.id ∈ t.depends_on →
      (((transition db task .done now).2.getTask t.id = some (unblockTask t)) ↔
        t.depends_on.all (depDone (transition db task .done now).2) = true)) ∧
    (∀ t' ∈ (transition db task .done now).2.tasks,
      t'.status = .blocked → t'.block_reason = "dependency" →
      task.id ∈ t'.depends_on →
      t'.depends_on.all (depDone (transition db task .done now).2) = false) := by
  have hmem : task ∈ db.tasks := List.mem_of_find?_eq_some htask
  set tdone := transitionTask task .done now with htd
  have htrans := transition_done_eq db task now hrun
  set db1 := db.updateTask tdone with hdb1
  have hnd1 : (db1.tasks.map Task.id).Nodup := by
    rw [hdb1, updateTask_ids]; exact hnd
  have htid : tdone.id = task.id := transitionTask_id task .done now
  have hdep : ∀ d, depDone (transition db task .done now).2 d = depDone db1 d := by
    intro d
    rw [htrans]
    exact depDone_unblockDependents task.id db1 hnd1 d
  rcases unblockDependents_spec task.id db1 hnd1 with ⟨S', he, hS', hiff⟩
  constructor
  · intro t ht hbl hbr hdeps
    have htne : t.id ≠ task.id := by
      intro heq
      have heq2 := mem_id_inj db hnd ht hmem heq
      rw [heq2, hrun] at hbl
      cases hbl
    have ht1 : t ∈ db1.tasks := by
      rw [hdb1]
      refine List.mem_map.mpr ⟨t, ht, ?_⟩
      show (if (t.id == tdone.id) = true then { tdone with created_at := t.created_at }
        else t) = t
      rw [if_neg (by rw [htid]; simpa using htne)]
    have hget1 : db1.getTask t.id = some t := getTask_of_mem_nodup db1 hnd1 t ht1
    have hflips : sweepFlips db1 task.id t = allDepsDone db1 t.depends_on := by
      unfold sweepFlips
      rw [show (t.block_reason == BlockReason.dependency.value) = true from by
          simp [hbr, BlockReason.value],
        contains_eq_true_of_mem hdeps]
      simp
    have hiff' := hiff t ht1
    have hall : t.depends_on.all (depDone (transition db task .done now).2)
        = allDepsDone db1 t.depends_on := by
      unfold allDepsDone
      rw [funext hdep]
    rw [hall, htrans, he, getTask_mkSweepDB, hget1, Option.map_some']
    constructor
    · intro hL
      by_cases hc : S'.contains t.id = true
      · have hx := hiff'.mp (List.elem_iff.mp hc)
        rw [hflips] at hx
        exact hx.2
      · simp only [flipBy] at hL
        rw [if_neg hc] at hL
        have heq3 : t = unblockTask t := Option.some.inj hL
        have hst := congrArg Task.status heq3
        rw [hbl] at hst
        simp [unblockTask] at hst
    · intro hR
      have hcS : t.id ∈ S' := hiff'.mpr ⟨hbl, by rw [hflips]; exact hR⟩
      simp only [flipBy]
      rw [if_pos (List.elem_iff.mpr hcS)]
  · intro t' ht' hbl' hbr' hdeps'
    rw [htrans, he] at ht'
    rcases List.mem_map.mp ht' with ⟨u, hu, hfu⟩
    simp only [flipBy] at hfu
    by_cases hc : S'.contains u.id = true
    · rw [if_pos hc] at hfu
      rw [← hfu] at hbl'
      simp [unblockTask] at hbl'
    · rw [if_neg hc] at hfu
      subst hfu
      have hnotS : ¬ u.id ∈ S' := fun hmem' => hc (List.elem_iff.mpr hmem')
      have hnf : ¬(u.status = .blocked ∧ sweepFlips db1 task.id u = true) :=
        fun hcontra => hnotS ((hiff u hu).mpr hcontra)
      have hflips' : sweepFlips db1 task.id u = allDepsDone db1 u.depends_on := by
        unfold sweepFlips
        rw [show (u.block_reason == BlockReason.dependency.value) = true from by
            simp [hbr', BlockReason.value],
          contains_eq_true_of_mem hdeps']
        simp
      have hfl_false : allDepsDone db1 u.depends_on = false := by
        cases hx : allDepsDone db1 u.depends_on with
        | true => exact absurd ⟨hbl', by rw [hflips']; exact hx⟩ hnf
        | false => rfl
      have hall : u.depends_on.all (depDone (transition db task .done now).2)
          = allDepsDone db1 u.depends_on := by
        unfold allDepsDone
        rw [funext hdep]
      rw [hall, hfl_false]

/-- Witness for C6: completing task 1 leaves task 2, blocked solely on
it, in status ready with an empty block-reason. -/
theorem c6_unblock_sweep_witness :
    (transition c6wDB c6wTask1 .done 4).2.getTask 2 = some (unblockTask c6wTask2) :=
  ((c6_unblock_sweep c6wDB c6wTask1 4 (by decide) rfl rfl).1 c6wTask2
    (List.mem_cons_of_mem _ (List.mem_cons_self _ _)) rfl rfl
    (List.mem_singleton.mpr rfl)).mpr (by decide)

/-- C6's counterexample to the original claim: after task 1 transitions
to done, task 2 — blocked with block-reason dependency on task 3, which
is already done — stays blocked even though every one of its
prerequisites is done, because it does not list task 1. -/
theorem c6_counterexample :
    ((transition c6DB c6Task1 .done 9).2.getTask 2).map Task.status
      = some .blocked ∧
    ((transition c6DB c6Task1 .done 9).2.getTask 2).map Task.block_reason
      = some "dependency" ∧
    c6Task2.depends_on.all (depDone (transition c6DB c6Task1 .done 9).2) = true := by
  refine ⟨by decide, by decide, by decide⟩

/-- The prerequisite check is exactly "every listed id refers to an
existing task in status done". -/
theorem allDepsDone_iff (db : DB) (deps : List Nat) :
    allDepsDone db deps = true ↔
      ∀ d ∈ deps, ∃ u, db.getTask d = some u ∧ u.status = .done := by
  unfold allDepsDone
  rw [List.all_eq_true]
  constructor
  · intro h d hd
    have hx := h d hd
    unfold depDone at hx
    cases hg : db.getTask d with
    | none => rw [hg] at hx; cases hx
    | some u => rw [hg] at hx; exact ⟨u, rfl, by simpa using hx⟩
  · intro h d hd
    rcases h d hd with ⟨u, hu, hdone⟩
    unfold depDone
    rw [hu]
    simp [hdone]

/-- C10 as amended: with a non-empty `depends_on` list, the created
task's initial status is ready iff every listed prerequisite id refers
to an existing task in status done (so a missing prerequisite yields
blocked with block-reason dependency); the unblock sweep leaves a
blocked task with a still-missing prerequisite untouched — but the state
is not permanently stuck: a later task can be allocated exactly the
missing autoincrement id and complete, after which the sweep does clear
the block (see the counterexample to the original claim). -/
theorem c10_add_task (db : DB) (title desc : String) (prio : TaskPriority)
    (branch : String) (deps : List Nat) (now : Nat) (hne : deps ≠ []) :
    ((add_task db title desc prio branch deps none none 0 [] now).1.status = .ready ↔
      ∀ d ∈ deps, ∃ u, db.getTask d = some u ∧ u.status = .done) ∧
    ((∃ d ∈ deps, db.getTask d = none) →
      (add_task db title desc prio branch deps none none 0 [] now).1.status
        = .blocked ∧
      (add_task db title desc prio branch deps none none 0 [] now).1.block_reason
        = "dependency") ∧
    (∀ (db' : DB) (c : Nat) (t : Task),
      (db'.tasks.map Task.id).Nodup → t ∈ db'.tasks → t.status = .blocked →
      (∃ d ∈ t.depends_on, db'.getTask d = none) →
      (unblockDependents c db').getTask t.id = some t) := by
  have hie : deps.isEmpty = false := by
    cases deps with
    | nil => exact absurd rfl hne
    | cons d ds => rfl
  refine ⟨?_, ?_, ?_⟩
  · rw [← allDepsDone_iff]
    by_cases hall : allDepsDone db deps = true
    · simp [add_task, DB.createTask, hie, hall]
    · have hall' : allDepsDone db deps = false := Bool.eq_false_iff.mpr hall
      simp [add_task, DB.createTask, hie, hall']
  · rintro ⟨d, hd, hmiss⟩
    have hall' : allDepsDone db deps = false := by
      refine List.all_eq_false.mpr ⟨d, hd, ?_⟩
      unfold depDone
      rw [hmiss]
      simp
    constructor <;> simp [add_task, DB.createTask, hie, hall', BlockReason.value]
  · intro db' c t hnd ht hbl hmiss
    rcases unblockDependents_getTask c db' hnd t ht with h | ⟨_, _, hfl⟩
    · exact h
    · rcases hmiss with ⟨d, hd, hnone⟩
      have : allDepsDone db' t.depends_on = false := by
        refine List.all_eq_false.mpr ⟨d, hd, ?_⟩
        unfold depDone
        rw [hnone]
        simp
      unfold sweepFlips at hfl
      rw [this] at hfl
      simp at hfl

/-- Witness for C10: a task depending on the missing id 2 is created
blocked with block-reason dependency. -/
theorem c10_add_task_witness :
    (add_task {} "B" "" .normal "" [2] none none 0 [] 0).1.status = .blocked ∧
    (add_task {} "B" "" .normal "" [2] none none 0 [] 0).1.block_reason
      = "dependency" :=
  (c10_add_task {} "B" "" .normal "" [2] 0 (by decide)).2.1
    ⟨2, List.mem_singleton.mpr rfl, rfl⟩

/-- C10's counterexample to "the unblock sweep can never clear it": task
B (id 1) is created blocked on the missing id 2; task C is then
allocated id 2, runs, and completes, and the sweep flips B to ready. -/
theorem c10_counterexample :
    (c10DB1.getTask 1).map Task.status = some .blocked ∧
    (c10DB1.getTask 1).map Task.block_reason = some "dependency" ∧
    c10DB1.getTask 2 = none ∧
    (c10DB4.getTask 1).map Task.status = some .ready ∧
    (c10DB4.getTask 1).map Task.block_reason = some "" := by
  refine ⟨by decide, by decide, rfl, by decide, by decide⟩

/-- C4 as amended: `advance` from stage PRECHECKS returns the lifecycle
unchanged, leaves every stored lifecycle's stage and counters as they
were, and appends exactly one new high-priority precheck follow-up task
per call — so repeated calls from PRECHECKS keep the stage fixed but
accumulate follow-up tasks (advance is not idempotent on the task
table). -/
theorem c4_advance_prechecks (cfg : PRLMConfig) (env : GitHubEnv) (db : DB)
    (prl_id now : Nat) (prl : PRLifecycle)
    (hget : db.getPrl prl_id = some prl) (hst : prl.stage = .prechecks) :
    (advance cfg env db prl_id now).1 = some prl ∧
    (∃ task : Task,
      (advance cfg env db prl_id now).2.tasks = db.tasks ++ [task] ∧
      task.title = "[PR " ++ prl.title ++ "] Run prechecks" ∧
      task.priority = .high ∧
      task.metadata = [("prl_id", Json.num prl.id), ("type", Json.str "precheck")]) ∧
    (∀ p ∈ (advance cfg env db prl_id now).2.prls, ∃ q ∈ db.prls,
      p.id = q.id ∧ p.stage = q.stage ∧ p.iteration = q.iteration ∧
      p.ci_fix_count = q.ci_fix_count) := by
  have hred : advance cfg env db prl_id now
      = (some prl, ((add_task db ("[PR " ++ prl.title ++ "] Run prechecks")
          ("Run " ++ cfg.precheck_command ++ " in workspace. Fix any failures.")
          .high prl.branch [] none none 0
          [("prl_id", Json.num prl.id), ("type", Json.str "precheck")] now).2).updatePrl
          prl) := by
    simp [advance, hget, hst]
  rw [hred]
  refine ⟨rfl, ?_, ?_⟩
  · refine ⟨precheckTaskRecord db cfg prl now, ?_, rfl, rfl, rfl⟩
    simp [add_task, DB.createTask, DB.updatePrl, precheckTaskRecord]
  · intro p hp
    have hprl_mem : prl ∈ db.prls := List.mem_of_find?_eq_some hget
    have hp' : p ∈ db.prls.map (fun q =>
        if q.id == prl.id then
          { prl with max_iterations := q.max_iterations, created_at := q.created_at }
        else q) := by
      simpa [DB.updatePrl, add_task, DB.createTask] using hp
    rcases List.mem_map.mp hp' with ⟨q, hq, hfq⟩
    by_cases hid : (q.id == prl.id) = true
    · rw [if_pos hid] at hfq
      exact ⟨prl, hprl_mem, by rw [← hfq], by rw [← hfq], by rw [← hfq],
        by rw [← hfq]⟩
    · rw [if_neg hid] at hfq
      exact ⟨q, hq, by rw [← hfq], by rw [← hfq], by rw [← hfq], by rw [← hfq]⟩

/-- Witness for C4's amended claim on the concrete PRECHECKS fixture. -/
theorem c4_advance_prechecks_witness :
    (advance {} c4Env c4DB 1 5).1 = some c4Prl ∧
    ∃ task : Task,
      (advance {} c4Env c4DB 1 5).2.tasks = c4DB.tasks ++ [task] ∧
      task.title = "[PR " ++ c4Prl.title ++ "] Run prechecks" ∧
      task.priority = .high ∧
      task.metadata = [("prl_id", Json.num c4Prl.id), ("type", Json.str "precheck")] :=
  ⟨(c4_advance_prechecks {} c4Env c4DB 1 5 c4Prl rfl rfl).1,
   (c4_advance_prechecks {} c4Env c4DB 1 5 c4Prl rfl rfl).2.1⟩

/-- C4's counterexample: a second `advance` from the same PRECHECKS
stage creates a second follow-up task although no stage-progress
condition held, so advance is not idempotent. -/
theorem c4_counterexample :
    c4DB1.tasks.length = 1 ∧
    (c4DB1.getPrl 1).map PRLifecycle.stage = some .prechecks ∧
    c4DB2.tasks.length = 2 ∧
    (c4DB2.getPrl 1).map PRLifecycle.stage = some .prechecks := by
  refine ⟨by decide, by decide, by decide, by decide⟩

end Conductor
